import Mathlib

/-
Verification of the DpdkDriver packet driver (RAMCloud fork, file
src/DpdkDriver.h). Constants and the priority-to-PCP table are embedded
directly from the header; method bodies live in DpdkDriver.cc, which is
not part of the sources here, so those operations are modelled from the
specification and marked as such.
-/

set_option autoImplicit false

namespace DpdkDriver

/-- Maximum number of hardware queues, `#define MAX_NUM_QUEUES 8` in
DpdkDriver.h. -/
def MAX_NUM_QUEUES : Nat := 8

/-- The MTU size of an Ethernet frame,
`static const uint32_t MAX_PAYLOAD_SIZE = 1500` in DpdkDriver.h. -/
def MAX_PAYLOAD_SIZE : Nat := 1500

/-- Size of the VLAN tag in bytes, `static const uint32_t VLAN_TAG_LEN = 4`
in DpdkDriver.h. The PCP field of the VLAN tag carries the packet
priority. -/
def VLAN_TAG_LEN : Nat := 4

/-- Size of the Ethernet header including the VLAN tag,
`static const uint32_t ETHER_VLAN_HDR_LEN = 14 + VLAN_TAG_LEN`. -/
def ETHER_VLAN_HDR_LEN : Nat := 14 + VLAN_TAG_LEN

/-- Map from absolute hardware priority levels to values of the PCP field,
`static constexpr uint16_t PRIORITY_TO_PCP[8] =
  \x7b1 << 13, 0 << 13, 2 << 13, 3 << 13, 4 << 13, 5 << 13, 6 << 13,
   7 << 13\x7d;` in DpdkDriver.h. Entries are 16-bit values with the PCP
code in the top 3 bits of the VLAN TCI field. -/
def PRIORITY_TO_PCP : List Nat :=
  [1 <<< 13, 0 <<< 13, 2 <<< 13, 3 <<< 13, 4 <<< 13, 5 <<< 13, 6 <<< 13,
   7 <<< 13]

/-- The PCP tag encoded at entry `i` of the table: the table stores the tag
shifted into the top 3 bits of the 16-bit TCI, so dividing by 2 ^ 13
recovers the tag value itself. -/
def pcpTagAt (i : Fin 8) : Nat :=
  (PRIORITY_TO_PCP.get (i.cast (by decide))) / 2 ^ 13

/-! Buffer pool and the outstanding-buffers counter.

The header declares `ObjectPool<PacketBuf> packetBufPool` and
`int packetBufsUtilized` (tracks number of outstanding allocated payloads,
for detecting leaks), together with the `release` entry point. The bodies
of the allocate and release paths are in DpdkDriver.cc, which is not among
the sources, so the pool dynamics are modelled from the spec. -/

/-- Modelled from the spec: state of the packet-buffer pool of one driver
instance. The bodies of the buffer allocation path (in receivePackets) and
of `DpdkDriver::release` are in DpdkDriver.cc, which is missing here.
`outstanding` lists the payload identities handed to callers and not yet
released; `packetBufsUtilized` is the leak-detection counter declared in
DpdkDriver.h (a C++ int, hence modelled as an Int); `nextId` produces
fresh payload identities. -/
structure PoolState where
  outstanding : List Nat
  packetBufsUtilized : Int
  nextId : Nat
deriving DecidableEq, Repr

/-- A driver instance starts with no buffers handed out and the counter at
zero. -/
def initPool : PoolState := ⟨[], 0, 0⟩

/-- Modelled from the spec: allocating a packet buffer hands a fresh
payload to the caller and increments the outstanding counter. -/
def allocate (s : PoolState) : PoolState × Nat :=
  ({ outstanding := s.nextId :: s.outstanding,
     packetBufsUtilized := s.packetBufsUtilized + 1,
     nextId := s.nextId + 1 }, s.nextId)

/-- Modelled from the spec: releasing a payload returns it to the pool and
decrements the outstanding counter. Per the spec every buffer handed to a
caller is matched by exactly one release call, so a release of a payload
that is not outstanding (a double release) is not a pool transition: the
counter is only decremented when the payload is actually outstanding,
hence never double-decremented. -/
def release (s : PoolState) (id : Nat) : PoolState :=
  if id ∈ s.outstanding then
    { s with outstanding := s.outstanding.erase id,
             packetBufsUtilized := s.packetBufsUtilized - 1 }
  else s

/-- One event of the pool history: an allocation or a release of a given
payload identity. -/
inductive PoolEv
  | alloc : PoolEv
  | rel : Nat → PoolEv
deriving DecidableEq, Repr

/-- Run a sequence of allocate and release events from a starting pool
state. -/
def runPool (s : PoolState) : List PoolEv → PoolState
  | [] => s
  | .alloc :: evs => runPool (allocate s).1 evs
  | .rel id :: evs => runPool (release s id) evs

/-! Transmit path.

DpdkDriver.h declares `sendPacket(addr, header, headerLen, payload,
priority, txQueueState)`, the configured priority bounds
`lowestPriorityAvail` and `highestPriorityAvail` (0 <= lowest <= highest
<= 7), and `getHighestPacketPriority`. The bodies are in DpdkDriver.cc,
which is not among the sources, so the send path is modelled from the
spec. -/

/-- Priority configuration of one driver instance: the fields
`lowestPriorityAvail` and `highestPriorityAvail` declared in DpdkDriver.h
(C++ ints). Per the header, 0 <= lowestPriorityAvail and
highestPriorityAvail <= 7. -/
structure PrioConfig where
  lowestPriorityAvail : Int
  highestPriorityAvail : Int
deriving DecidableEq, Repr

/-- Modelled from the spec: the body of
`DpdkDriver::getHighestPacketPriority` is in DpdkDriver.cc, not among the
sources. Per the spec the caller-visible priority scale is 0..N with
N = highestPriorityAvail - lowestPriorityAvail. -/
def getHighestPacketPriority (c : PrioConfig) : Int :=
  c.highestPriorityAvail - c.lowestPriorityAvail

/-- An Ethernet frame as it is handed to the hardware transmit ring or a
loopback channel: the 16-bit VLAN TCI carrying the PCP tag, and the total
frame length. -/
structure TxFrame where
  vlanTci : Nat
  frameLen : Nat
deriving DecidableEq, Repr

/-- Transmit-side state visible to a send call: the hardware transmit ring
and the tx loopback channel toward the queue owner. -/
structure TxState where
  txRing : List TxFrame
  txLoopback : List TxFrame
deriving DecidableEq, Repr

/-- Modelled from the spec: the body of `DpdkDriver::sendPacket` is in
DpdkDriver.cc, not among the sources. Per the spec the call validates the
frame size against the MTU and the priority against the configured range
before any hardware interaction, maps the priority to a PCP tag through
the fixed table indexed by the absolute hardware level
(priority + lowestPriorityAvail), and enqueues the frame to the hardware
transmit ring when this instance owns the tx queue, or to the tx loopback
channel otherwise. -/
def sendPacket (c : PrioConfig) (txOwned : Bool)
    (headerLen payloadLen : Nat) (priority : Int) (s : TxState) :
    Except String TxState :=
  if MAX_PAYLOAD_SIZE < headerLen + payloadLen then
    .error "packet exceeds maximum payload size"
  else if priority < 0 ∨ getHighestPacketPriority c < priority then
    .error "invalid packet priority"
  else
    let frame : TxFrame :=
      ⟨PRIORITY_TO_PCP.getD (priority + c.lowestPriorityAvail).toNat 0,
       ETHER_VLAN_HDR_LEN + headerLen + payloadLen⟩
    if txOwned then .ok { s with txRing := s.txRing ++ [frame] }
    else .ok { s with txLoopback := s.txLoopback ++ [frame] }

/-- The transmit state after a send call: unchanged when the call was
rejected. -/
def sendPacketStep (c : PrioConfig) (txOwned : Bool)
    (headerLen payloadLen : Nat) (priority : Int) (s : TxState) : TxState :=
  match sendPacket c txOwned headerLen payloadLen priority s with
  | .ok s2 => s2
  | .error _ => s

/-! Receive path.

DpdkDriver.h declares `receivePackets(maxPackets, receivedPackets)`. The
body is in DpdkDriver.cc, which is not among the sources, so the receive
path is modelled from the spec: one call polls one batch of up to
maxPackets frames from the source this instance drains (the hardware ring
for the owner, the loopback channel otherwise), consuming them so the
next call produces the next batch. Frames are identified by abstract
identifiers. -/

/-- Receive-side state of one driver instance: the frames currently
available to it, oldest first. -/
structure RxState where
  pending : List Nat
deriving DecidableEq, Repr

/-- Modelled from the spec: the body of `DpdkDriver::receivePackets` is in
DpdkDriver.cc, not among the sources. Per the spec one call returns one
finite batch of at most maxPackets frames, never padding and never
blocking, and consumes them so the next call never replays a frame. -/
def receivePackets (maxPackets : Nat) (s : RxState) : List Nat × RxState :=
  (s.pending.take maxPackets, ⟨s.pending.drop maxPackets⟩)

/-! Queue registry and lifecycle.

DpdkDriver.h declares the static registry: `nextQueueId` (when it is
zero, dpdk is initialized), `allInstances` protected by `lifetimeMutex`,
the per-instance `queueId` and `rxQueueOwned` flag, and
`MAX_NUM_QUEUES`. The constructor and destructor bodies are in
DpdkDriver.cc, not among the sources, so the lifecycle transitions are
modelled from the spec as a sequential state machine: construction and
destruction run one at a time under the single lifetime lock. -/

/-- Hardware lifecycle states of the shared port, per the spec state
machine. -/
inductive HwState
  | UNINITIALIZED
  | ACTIVE
  | SHUTDOWN
deriving DecidableEq, Repr

/-- One registered driver instance: its assigned queue id and its
`rxQueueOwned` flag from DpdkDriver.h. -/
structure Inst where
  queueId : Nat
  rxQueueOwned : Bool
deriving DecidableEq, Repr

/-- Process-wide registry state for one physical port: the static
`nextQueueId` counter, the `allInstances` set (as a list in registration
order), the hardware lifecycle state, and counters of how many times
hardware setup and teardown have run. -/
structure PortState where
  nextQueueId : Nat
  instances : List Inst
  hw : HwState
  hwInitCount : Nat
  hwTeardownCount : Nat
deriving DecidableEq, Repr

/-- The state of a port before any driver instance has been constructed. -/
def initialPort : PortState :=
  { nextQueueId := 0, instances := [], hw := .UNINITIALIZED,
    hwInitCount := 0, hwTeardownCount := 0 }

/-- Modelled from the spec: the DpdkDriver constructor body is in
DpdkDriver.cc, not among the sources. Under the lifetime lock it assigns
the next free queue id, failing with "no queues available" when
MAX_NUM_QUEUES is exceeded; on the first construction (counter at zero) it
initializes the hardware, transitions the port to ACTIVE and designates
the instance as rx-queue owner; it then registers the instance. -/
def construct (s : PortState) : Except String (Nat × PortState) :=
  if MAX_NUM_QUEUES ≤ s.nextQueueId then
    .error "no queues available"
  else
    .ok (s.nextQueueId,
      { nextQueueId := s.nextQueueId + 1,
        instances := s.instances ++ [⟨s.nextQueueId, s.nextQueueId == 0⟩],
        hw := if s.nextQueueId == 0 then .ACTIVE else s.hw,
        hwInitCount :=
          if s.nextQueueId == 0 then s.hwInitCount + 1 else s.hwInitCount,
        hwTeardownCount := s.hwTeardownCount })

/-- The lowest queue id among a list of instances (the deterministic
selection policy for rx-queue ownership hand-off). -/
def minQueueId (l : List Inst) : Nat :=
  ((l.map Inst.queueId).min?).getD 0

/-- The instances that remain registered after the one holding queue id
qid leaves. -/
def survivors (s : PortState) (qid : Nat) : List Inst :=
  s.instances.filter (fun i => i.queueId != qid)

/-- Hand rx-queue ownership to the instance with the lowest queue id in
the list, clearing the flag on every other instance, so the hand-off is
complete before the lifetime lock is released. -/
def handoff (l : List Inst) : List Inst :=
  l.map (fun i => Inst.mk i.queueId (i.queueId == minQueueId l))

/-- Modelled from the spec: the DpdkDriver destructor body is in
DpdkDriver.cc, not among the sources. Under the lifetime lock it removes
the instance with the given queue id from the registry; if the registry
becomes empty the port transitions to SHUTDOWN and hardware teardown runs
exactly once; otherwise, if the departing instance owned the rx queue,
ownership is handed to the surviving instance with the lowest queue id
before the lock is released. -/
def destruct (s : PortState) (qid : Nat) : PortState :=
  match s.instances.find? (fun i => i.queueId == qid) with
  | none => s
  | some inst =>
    if survivors s qid = [] then
      { nextQueueId := 0, instances := [], hw := .SHUTDOWN,
        hwInitCount := s.hwInitCount,
        hwTeardownCount := s.hwTeardownCount + 1 }
    else if inst.rxQueueOwned then
      { s with instances := handoff (survivors s qid) }
    else
      { s with instances := survivors s qid }

/-- One lifecycle event on the port: a construction attempt or the
destruction of the instance holding a given queue id. -/
inductive PortEv
  | construct
  | destruct (qid : Nat)
deriving DecidableEq, Repr

/-- Apply one lifecycle event; a failed construction leaves the port
unchanged. -/
def stepPort (s : PortState) : PortEv → PortState
  | .construct =>
      match construct s with
      | .ok (_, s2) => s2
      | .error _ => s
  | .destruct qid => destruct s qid

/-- Run a sequence of lifecycle events from a starting port state. -/
def runPort (s : PortState) : List PortEv → PortState
  | [] => s
  | ev :: evs => runPort (stepPort s ev) evs

/-- Number of registered instances whose rxQueueOwned flag is set. -/
def ownersCount (s : PortState) : Nat :=
  (s.instances.filter (fun i => i.rxQueueOwned)).length

/-- Registry invariant: queue ids are distinct and below the counter, an
empty registry has the counter at zero, and while any instance is
registered there is exactly one rx-queue owner and the hardware is
ACTIVE. -/
def PortInv (s : PortState) : Prop :=
  (s.instances.map Inst.queueId).Nodup ∧
  (∀ i ∈ s.instances, i.queueId < s.nextQueueId) ∧
  (s.instances = [] → s.nextQueueId = 0) ∧
  (s.instances ≠ [] → ownersCount s = 1) ∧
  (s.instances ≠ [] → s.hw = .ACTIVE)

/-! Theorems. -/

/-- Claim C1: the priority-to-hardware-tag mapping is a fixed 8-entry table
over absolute hardware priority levels 0..7 whose tag (PCP) values are:
level 0 maps to tag 1, level 1 maps to tag 0, and every level p from 2
through 7 maps to tag p. -/
theorem priority_to_pcp_table_exact :
    PRIORITY_TO_PCP.length = 8 ∧
    pcpTagAt 0 = 1 ∧ pcpTagAt 1 = 0 ∧
    ∀ i : Fin 8, 2 ≤ (i : Nat) → pcpTagAt i = (i : Nat) := by
  refine ⟨by decide, by decide, by decide, ?_⟩
  decide

/-- Witness for C1: the universally quantified conjunct holds at the
concrete level 5, whose hypothesis 2 ≤ 5 is discharged by computation. -/
theorem priority_to_pcp_table_exact_witness :
    pcpTagAt 5 = 5 :=
  priority_to_pcp_table_exact.2.2.2 5 (by decide)

/-- Claim C10: every entry of PRIORITY_TO_PCP is its PCP value shifted left
by 13 bits: entry 0 is 1 * 2 ^ 13, entry 1 is 0, entry i is i * 2 ^ 13 for
i in 2..7; every entry fits in a 16-bit unsigned integer and has zero low
13 bits. -/
theorem priority_to_pcp_entries_shifted :
    (∀ i : Fin 8, PRIORITY_TO_PCP.get (i.cast (by decide)) =
      pcpTagAt i * 2 ^ 13) ∧
    PRIORITY_TO_PCP.get ⟨0, by decide⟩ = 1 * 2 ^ 13 ∧
    PRIORITY_TO_PCP.get ⟨1, by decide⟩ = 0 ∧
    (∀ i : Fin 8, 2 ≤ (i : Nat) →
      PRIORITY_TO_PCP.get (i.cast (by decide)) = (i : Nat) * 2 ^ 13) ∧
    (∀ i : Fin 8, PRIORITY_TO_PCP.get (i.cast (by decide)) < 2 ^ 16 ∧
      PRIORITY_TO_PCP.get (i.cast (by decide)) % 2 ^ 13 = 0) := by
  refine ⟨by decide, by decide, by decide, by decide, by decide⟩

/-- Witness for C10: the hypothesis-bearing conjunct holds at the concrete
index 7. -/
theorem priority_to_pcp_entries_shifted_witness :
    PRIORITY_TO_PCP.get ((7 : Fin 8).cast (by decide)) = 7 * 2 ^ 13 :=
  priority_to_pcp_entries_shifted.2.2.2.1 7 (by decide)

/-- The pool counter always equals the number of outstanding buffers, for
any state whose counter already agrees with its outstanding list. -/
theorem runPool_counter_eq (s : PoolState)
    (h : s.packetBufsUtilized = s.outstanding.length) :
    ∀ evs : List PoolEv,
      (runPool s evs).packetBufsUtilized =
        (runPool s evs).outstanding.length := by
  intro evs
  induction evs generalizing s with
  | nil => exact h
  | cons ev evs ih =>
    cases ev with
    | alloc =>
      apply ih
      simp [allocate, h]
    | rel id =>
      apply ih
      by_cases hmem : id ∈ s.outstanding
      · simp only [release, if_pos hmem]
        have hlen : (s.outstanding.erase id).length =
            s.outstanding.length - 1 := List.length_erase_of_mem hmem
        have hpos : 0 < s.outstanding.length := List.length_pos.mpr
          (fun he => by simp [he] at hmem)
        simp only [hlen, h]
        omega
      · simp [release, if_neg hmem, h]

/-- Claim C3: for all sequences of buffer allocations and releases starting
from a fresh driver instance, the outstanding-buffers counter is always
nonnegative, equals at every point exactly the number of buffers handed
out and not yet released, returns to zero exactly when no client-visible
buffers remain, and a release of an id that is not outstanding (a double
release) never decrements the counter. -/
theorem packetBufsUtilized_invariant :
    ∀ evs : List PoolEv,
      (runPool initPool evs).packetBufsUtilized =
        (runPool initPool evs).outstanding.length ∧
      0 ≤ (runPool initPool evs).packetBufsUtilized ∧
      ((runPool initPool evs).packetBufsUtilized = 0 ↔
        (runPool initPool evs).outstanding = []) ∧
      ∀ id : Nat, id ∉ (runPool initPool evs).outstanding →
        (release (runPool initPool evs) id).packetBufsUtilized =
          (runPool initPool evs).packetBufsUtilized := by
  intro evs
  have h := runPool_counter_eq initPool rfl evs
  refine ⟨h, by simp [h], ?_, ?_⟩
  · rw [h]
    constructor
    · intro hz
      have : (runPool initPool evs).outstanding.length = 0 := by
        exact_mod_cast hz
      exact List.length_eq_zero.mp this
    · intro he
      simp [he]
  · intro id hid
    simp [release, if_neg hid]

/-- Witness for C3: after two allocations and one release of payload 0, the
theorem instantiates to the concrete resulting state; the remaining
hypothesis (payload 5 is not outstanding) is discharged by computation. -/
theorem packetBufsUtilized_invariant_witness :
    (release (runPool initPool [.alloc, .alloc, .rel 0]) 5).packetBufsUtilized
      = (runPool initPool [.alloc, .alloc, .rel 0]).packetBufsUtilized :=
  (packetBufsUtilized_invariant [.alloc, .alloc, .rel 0]).2.2.2 5
    (by decide)

/-- Claim C4: a send call whose header length plus payload length exceeds
the MTU (1500 bytes) is rejected as a contract violation before any
interaction with the transmit ring or loopback channel, leaving driver
and hardware state unchanged. -/
theorem sendPacket_oversized_rejected (c : PrioConfig) (txOwned : Bool)
    (headerLen payloadLen : Nat) (priority : Int) (s : TxState)
    (h : MAX_PAYLOAD_SIZE < headerLen + payloadLen) :
    sendPacket c txOwned headerLen payloadLen priority s =
      .error "packet exceeds maximum payload size" ∧
    sendPacketStep c txOwned headerLen payloadLen priority s = s := by
  constructor
  · simp [sendPacket, if_pos h]
  · simp [sendPacketStep, sendPacket, if_pos h]

/-- Witness for C4: an 800-byte header plus an 800-byte payload exceeds the
1500-byte MTU, and the send call on an empty transmit state is rejected
with the state intact. -/
theorem sendPacket_oversized_rejected_witness :
    sendPacket ⟨0, 7⟩ true 800 800 0 ⟨[], []⟩ =
      .error "packet exceeds maximum payload size" ∧
    sendPacketStep ⟨0, 7⟩ true 800 800 0 ⟨[], []⟩ = (⟨[], []⟩ : TxState) :=
  sendPacket_oversized_rejected ⟨0, 7⟩ true 800 800 0 ⟨[], []⟩ (by decide)

/-- Claim C5: a send call with a priority outside [0, N], where
N = highestPriorityAvail - lowestPriorityAvail, fails fast as a contract
violation: it never clamps the priority and never enqueues a frame, on
either the hardware ring or the loopback channel. -/
theorem sendPacket_bad_priority_rejected (c : PrioConfig) (txOwned : Bool)
    (headerLen payloadLen : Nat) (priority : Int) (s : TxState)
    (h : priority < 0 ∨ getHighestPacketPriority c < priority) :
    (∃ msg : String,
      sendPacket c txOwned headerLen payloadLen priority s = .error msg) ∧
    sendPacketStep c txOwned headerLen payloadLen priority s = s := by
  by_cases hsz : MAX_PAYLOAD_SIZE < headerLen + payloadLen
  · exact ⟨⟨"packet exceeds maximum payload size",
      (sendPacket_oversized_rejected c txOwned headerLen payloadLen
        priority s hsz).1⟩,
      (sendPacket_oversized_rejected c txOwned headerLen payloadLen
        priority s hsz).2⟩
  · constructor
    · exact ⟨"invalid packet priority",
        by simp [sendPacket, if_neg hsz, if_pos h]⟩
    · simp [sendPacketStep, sendPacket, if_neg hsz, if_pos h]

/-- Witness for C5: with bounds [2, 5] the caller-visible scale is 0..3, so
priority 4 is out of range and the send call fails without touching the
empty transmit state. -/
theorem sendPacket_bad_priority_rejected_witness :
    (∃ msg : String, sendPacket ⟨2, 5⟩ true 10 10 4 ⟨[], []⟩ = .error msg) ∧
    sendPacketStep ⟨2, 5⟩ true 10 10 4 ⟨[], []⟩ = (⟨[], []⟩ : TxState) :=
  sendPacket_bad_priority_rejected ⟨2, 5⟩ true 10 10 4 ⟨[], []⟩
    (by right; decide)

/-- Claim C2: for a driver configured with priority bounds
0 <= lowest <= highest <= 7, the caller-visible priority scale is 0..N
with N = highest - lowest: the highest-priority accessor reports exactly
highest - lowest, and a send with priority p in [0, N] succeeds (given an
in-MTU frame) and stamps the frame with the PCP table entry at the
absolute hardware level p + lowest, whether it goes to the hardware ring
or the loopback channel. -/
theorem caller_visible_priority_scale (c : PrioConfig) (txOwned : Bool)
    (headerLen payloadLen : Nat) (priority : Int) (s : TxState)
    (hlow : 0 ≤ c.lowestPriorityAvail)
    (hhigh : c.highestPriorityAvail ≤ 7)
    (hp0 : 0 ≤ priority)
    (hpN : priority ≤ getHighestPacketPriority c)
    (hsz : headerLen + payloadLen ≤ MAX_PAYLOAD_SIZE) :
    getHighestPacketPriority c =
      c.highestPriorityAvail - c.lowestPriorityAvail ∧
    sendPacket c txOwned headerLen payloadLen priority s =
      .ok (let frame : TxFrame :=
            ⟨PRIORITY_TO_PCP.getD
                (priority + c.lowestPriorityAvail).toNat 0,
             ETHER_VLAN_HDR_LEN + headerLen + payloadLen⟩
          if txOwned then { s with txRing := s.txRing ++ [frame] }
          else { s with txLoopback := s.txLoopback ++ [frame] }) ∧
    (priority + c.lowestPriorityAvail).toNat < 8 := by
  refine ⟨rfl, ?_, ?_⟩
  · have h1 : ¬ MAX_PAYLOAD_SIZE < headerLen + payloadLen := by omega
    have h2 : ¬ (priority < 0 ∨ getHighestPacketPriority c < priority) := by
      push_neg
      exact ⟨hp0, hpN⟩
    simp only [sendPacket, if_neg h1, if_neg h2]
    by_cases ho : txOwned <;> simp [ho]
  · have : priority + c.lowestPriorityAvail ≤ 7 := by
      simp only [getHighestPacketPriority] at hpN
      omega
    omega

/-- Witness for C2: with bounds [2, 6] the scale is 0..4; a send with
priority 3 on an empty state succeeds and stamps the frame with the table
entry at absolute level 5, namely 5 * 2 ^ 13 = 40960. -/
theorem caller_visible_priority_scale_witness :
    getHighestPacketPriority ⟨2, 6⟩ = 4 ∧
    sendPacket ⟨2, 6⟩ true 20 100 3 ⟨[], []⟩ =
      .ok ⟨[⟨40960, ETHER_VLAN_HDR_LEN + 20 + 100⟩], []⟩ := by
  have h := caller_visible_priority_scale ⟨2, 6⟩ true 20 100 3 ⟨[], []⟩
    (by decide) (by decide) (by decide) (by decide) (by decide)
  exact ⟨h.1, by rw [h.2.1]; rfl⟩

/-- Claim C8: a receivePackets call with budget N returns at most N
frames; with fewer than N frames available it returns exactly those
frames without padding; and two successive calls return successive
disjoint batches, jointly a prefix of the pending stream, with no frame
replayed. -/
theorem receivePackets_batches (s : RxState) (n m : Nat)
    (hnd : s.pending.Nodup) :
    (receivePackets n s).1.length ≤ n ∧
    (s.pending.length < n → (receivePackets n s).1 = s.pending ∧
      (receivePackets n s).2.pending = []) ∧
    (receivePackets n s).1 ++ (receivePackets m (receivePackets n s).2).1
      <+: s.pending ∧
    (receivePackets n s).1.Disjoint
      (receivePackets m (receivePackets n s).2).1 := by
  refine ⟨?_, ?_, ?_, ?_⟩
  · simp [receivePackets, List.length_take]
  · intro hlt
    constructor
    · simp [receivePackets, List.take_of_length_le (le_of_lt hlt)]
    · simp [receivePackets, List.drop_eq_nil_of_le (le_of_lt hlt)]
  · have : s.pending.take n ++ (s.pending.drop n).take m =
        s.pending.take (n + m) := (List.take_add s.pending n m).symm
    simp only [receivePackets, this]
    exact List.take_prefix (n + m) s.pending
  · have hdj : List.Disjoint (s.pending.take n) (s.pending.drop n) :=
      List.disjoint_take_drop hnd (le_refl n)
    intro a ha hb
    exact hdj ha (List.take_subset m _ hb)

/-- Witness for C8: with three distinct pending frames and a budget of 5,
the first call returns all three frames (fewer than the budget, no
padding) and the second call returns the empty disjoint batch. -/
theorem receivePackets_batches_witness :
    (receivePackets 5 ⟨[10, 11, 12]⟩).1.length ≤ 5 ∧
    (receivePackets 5 ⟨[10, 11, 12]⟩).1 = [10, 11, 12] ∧
    (receivePackets 5 ⟨[10, 11, 12]⟩).2.pending = [] := by
  have h := receivePackets_batches ⟨[10, 11, 12]⟩ 5 5 (by decide)
  exact ⟨h.1, (h.2.1 (by decide)).1, (h.2.1 (by decide)).2⟩

/-- The invariant holds before any instance is constructed. -/
theorem portInv_initial : PortInv initialPort := by
  refine ⟨by simp [initialPort], by simp [initialPort], fun _ => rfl,
    fun h => absurd rfl h, fun h => absurd rfl h⟩

/-- Marking as owner exactly the instances whose queue id equals m yields
as many owners as occurrences of m among the queue ids. -/
theorem length_filter_mark (l : List Inst) (m : Nat) :
    ((l.map fun i => Inst.mk i.queueId (i.queueId == m)).filter
        (fun i => i.rxQueueOwned)).length
      = (l.map Inst.queueId).count m := by
  induction l with
  | nil => rfl
  | cons a l ih =>
    by_cases hm : a.queueId = m
    · simp [List.count_cons, hm, ih]
    · simp [List.count_cons, hm, ih]

/-- A successful construction preserves the registry invariant. -/
theorem portInv_construct (s : PortState) (h : PortInv s) :
    PortInv (stepPort s .construct) := by
  obtain ⟨hnd, hlt, hemp, hown, hhw⟩ := h
  by_cases hq : MAX_NUM_QUEUES ≤ s.nextQueueId
  · simpa [stepPort, construct, if_pos hq] using
      (⟨hnd, hlt, hemp, hown, hhw⟩ : PortInv s)
  · have hq_not : s.nextQueueId ∉ s.instances.map Inst.queueId := by
      intro hmem
      obtain ⟨i, hi, hqi⟩ := List.mem_map.mp hmem
      exact absurd hqi (Nat.ne_of_lt (hlt i hi))
    simp only [stepPort, construct, if_neg hq]
    refine ⟨?_, ?_, ?_, ?_, ?_⟩
    · simp only [List.map_append, List.map_cons, List.map_nil]
      rw [List.nodup_append]
      exact ⟨hnd, List.nodup_singleton _,
        by simpa [List.disjoint_singleton] using hq_not⟩
    · intro i hi
      rcases List.mem_append.mp hi with hin | hnew
      · exact Nat.lt_succ_of_lt (hlt i hin)
      · simp only [List.mem_singleton] at hnew
        simp [hnew]
    · intro habs
      exact absurd habs (by simp)
    · intro _
      by_cases hz : s.nextQueueId = 0
      · have hins : s.instances = [] := by
          cases hins2 : s.instances with
          | nil => rfl
          | cons a l =>
            have := hlt a (by rw [hins2]; exact List.mem_cons_self a l)
            omega
        simp [ownersCount, hins, hz]
      · have hne : s.instances ≠ [] := fun he => hz (hemp he)
        have h1 := hown hne
        simp only [ownersCount] at h1 ⊢
        simp [List.filter_append, hz, h1]
    · intro _
      by_cases hz : s.nextQueueId = 0
      · simp [hz]
      · have hne : s.instances ≠ [] := fun he => hz (hemp he)
        simp [hz, hhw hne]

/-- A destruction preserves the registry invariant. -/
theorem portInv_destruct (s : PortState) (qid : Nat) (h : PortInv s) :
    PortInv (destruct s qid) := by
  obtain ⟨hnd, hlt, hemp, hown, hhw⟩ := h
  unfold destruct
  cases hf : s.instances.find? (fun i => i.queueId == qid) with
  | none => exact ⟨hnd, hlt, hemp, hown, hhw⟩
  | some inst =>
    have hinst_mem : inst ∈ s.instances := List.mem_of_find?_eq_some hf
    have hinst_q : inst.queueId = qid := by
      have := List.find?_some hf
      simpa using this
    have hne : s.instances ≠ [] := List.ne_nil_of_mem hinst_mem
    have hnd_rest : ((survivors s qid).map Inst.queueId).Nodup :=
      hnd.sublist ((List.filter_sublist s.instances).map Inst.queueId)
    have hsub_mem : ∀ i ∈ survivors s qid, i ∈ s.instances :=
      fun i hi => (List.mem_filter.mp hi).1
    by_cases hre : survivors s qid = []
    · simp only [if_pos hre]
      exact ⟨by simp, by simp, fun _ => rfl,
        fun habs => absurd rfl habs, fun habs => absurd rfl habs⟩
    · simp only [if_neg hre]
      by_cases howned : inst.rxQueueOwned = true
      · simp only [if_pos howned]
        have hmap_q : ((handoff (survivors s qid)).map Inst.queueId)
            = (survivors s qid).map Inst.queueId := by
          simp [handoff, List.map_map, Function.comp]
        have hmin_mem : minQueueId (survivors s qid) ∈
            (survivors s qid).map Inst.queueId := by
          have hmap_ne : (survivors s qid).map Inst.queueId ≠ [] := by
            simpa using hre
          cases hmn : ((survivors s qid).map Inst.queueId).min? with
          | none => exact absurd (List.min?_eq_none_iff.mp hmn) hmap_ne
          | some m0 =>
            have hm0 : minQueueId (survivors s qid) = m0 := by
              simp [minQueueId, hmn]
            rw [hm0]
            exact List.min?_mem (fun a b => min_choice a b) hmn
        refine ⟨?_, ?_, ?_, ?_, ?_⟩
        · rw [hmap_q]
          exact hnd_rest
        · intro i hi
          obtain ⟨j, hj, hji⟩ := List.mem_map.mp hi
          have hq : i.queueId = j.queueId := by rw [← hji]
          rw [hq]
          exact hlt j (hsub_mem j hj)
        · intro habs
          rw [handoff, List.map_eq_nil_iff] at habs
          exact absurd habs hre
        · intro _
          simp only [ownersCount, handoff]
          rw [length_filter_mark]
          exact List.count_eq_one_of_mem hnd_rest hmin_mem
        · intro _
          exact hhw hne
      · simp only [if_neg howned]
        have h1 := hown hne
        obtain ⟨o, ho⟩ := List.length_eq_one.mp h1
        have ho_sing : o ∈ s.instances.filter (fun i => i.rxQueueOwned) := by
          rw [ho]
          exact List.mem_singleton_self o
        have ho_mem : o ∈ s.instances := (List.mem_filter.mp ho_sing).1
        have ho_owned : o.rxQueueOwned = true := by
          simpa using (List.mem_filter.mp ho_sing).2
        have honeq : o.queueId ≠ qid := by
          intro he
          have hoi : o = inst :=
            List.inj_on_of_nodup_map hnd ho_mem hinst_mem
              (by rw [he, hinst_q])
          rw [hoi] at ho_owned
          exact howned ho_owned
        refine ⟨hnd_rest, fun i hi => hlt i (hsub_mem i hi), ?_, ?_, ?_⟩
        · intro habs
          exact absurd habs hre
        · intro _
          simp only [ownersCount, survivors]
          rw [List.filter_comm, ho]
          simp [honeq]
        · intro _
          exact hhw hne

/-- Any lifecycle step preserves the registry invariant. -/
theorem portInv_step (s : PortState) (ev : PortEv) (h : PortInv s) :
    PortInv (stepPort s ev) := by
  cases ev with
  | construct => exact portInv_construct s h
  | destruct qid => exact portInv_destruct s qid h

/-- Every state reachable from the fresh port satisfies the registry
invariant. -/
theorem portInv_run (evs : List PortEv) : PortInv (runPort initialPort evs) := by
  suffices h : ∀ s : PortState, PortInv s → PortInv (runPort s evs) from
    h initialPort portInv_initial
  induction evs with
  | nil => exact fun s hs => hs
  | cons ev evs ih => exact fun s hs => ih (stepPort s ev) (portInv_step s ev hs)

/-- Claim C6: with MAX_NUM_QUEUES = 8, a construction attempted while the
queue counter has reached the limit fails with a "no queues available"
error and leaves the registry state unchanged; concretely, after 8
constructions from a fresh port the counter is 8, 8 instances are
registered, and the 9th construction changes nothing. -/
theorem ninth_instance_fails (s : PortState)
    (h : MAX_NUM_QUEUES ≤ s.nextQueueId) :
    construct s = .error "no queues available" ∧
    stepPort s .construct = s ∧
    (runPort initialPort (List.replicate 8 .construct)).nextQueueId =
      MAX_NUM_QUEUES ∧
    (runPort initialPort (List.replicate 8 .construct)).instances.length
      = 8 ∧
    stepPort (runPort initialPort (List.replicate 8 .construct)) .construct
      = runPort initialPort (List.replicate 8 .construct) := by
  refine ⟨by simp [construct, if_pos h],
    by simp [stepPort, construct, if_pos h], by decide, by decide, by decide⟩

/-- Witness for C6: the state reached by 8 constructions from the fresh
port has its counter at the limit, so the theorem applies to it: the 9th
construction fails and the state is untouched. -/
theorem ninth_instance_fails_witness :
    construct (runPort initialPort (List.replicate 8 .construct)) =
      .error "no queues available" ∧
    stepPort (runPort initialPort (List.replicate 8 .construct)) .construct
      = runPort initialPort (List.replicate 8 .construct) :=
  ⟨(ninth_instance_fails (runPort initialPort (List.replicate 8 .construct))
      (by decide)).1,
   (ninth_instance_fails (runPort initialPort (List.replicate 8 .construct))
      (by decide)).2.1⟩

/-- Claim C7: in every reachable registry state with at least one
registered instance there is exactly one rx-queue owner (never zero, never
more than one); and destroying the owner while survivors remain hands
ownership deterministically to the survivor with the lowest queue id:
afterwards exactly one instance is owner, the lowest surviving queue id
belongs to a survivor, and an instance is owner precisely when it holds
that lowest queue id. -/
theorem rx_owner_handoff :
    (∀ evs : List PortEv, (runPort initialPort evs).instances ≠ [] →
      ownersCount (runPort initialPort evs) = 1) ∧
    (∀ (s : PortState) (inst : Inst), PortInv s →
      s.instances.find? (fun i => i.queueId == inst.queueId) = some inst →
      inst.rxQueueOwned = true →
      survivors s inst.queueId ≠ [] →
      (destruct s inst.queueId).instances =
        handoff (survivors s inst.queueId) ∧
      ownersCount (destruct s inst.queueId) = 1 ∧
      minQueueId (survivors s inst.queueId) ∈
        (survivors s inst.queueId).map Inst.queueId ∧
      (∀ i ∈ (destruct s inst.queueId).instances,
        i.rxQueueOwned =
          (i.queueId == minQueueId (survivors s inst.queueId)))) := by
  constructor
  · intro evs hne
    exact (portInv_run evs).2.2.2.1 hne
  · intro s inst hInv hf howned hre
    have hdes : (destruct s inst.queueId).instances =
        handoff (survivors s inst.queueId) := by
      unfold destruct
      rw [hf]
      simp [if_neg hre, howned]
    have hne2 : (destruct s inst.queueId).instances ≠ [] := by
      rw [hdes, handoff]
      intro habs
      rw [List.map_eq_nil_iff] at habs
      exact absurd habs hre
    refine ⟨hdes, (portInv_destruct s inst.queueId hInv).2.2.2.1 hne2,
      ?_, ?_⟩
    · have hmap_ne : (survivors s inst.queueId).map Inst.queueId ≠ [] := by
        simpa using hre
      cases hmn : ((survivors s inst.queueId).map Inst.queueId).min? with
      | none => exact absurd (List.min?_eq_none_iff.mp hmn) hmap_ne
      | some m0 =>
        have hm0 : minQueueId (survivors s inst.queueId) = m0 := by
          simp [minQueueId, hmn]
        rw [hm0]
        exact List.min?_mem (fun a b => min_choice a b) hmn
    · intro i hi
      rw [hdes, handoff] at hi
      obtain ⟨j, _, hji⟩ := List.mem_map.mp hi
      rw [← hji]

/-- Witness for C7: a registry with instances 0 (the owner), 1 and 2;
destroying instance 0 hands ownership to the lowest surviving queue id,
leaving exactly one owner. -/
theorem rx_owner_handoff_witness :
    ownersCount (destruct
      ⟨3, [⟨0, true⟩, ⟨1, false⟩, ⟨2, false⟩], .ACTIVE, 1, 0⟩ 0) = 1 :=
  (rx_owner_handoff.2
    ⟨3, [⟨0, true⟩, ⟨1, false⟩, ⟨2, false⟩], .ACTIVE, 1, 0⟩ ⟨0, true⟩
    ⟨by decide, by decide, by decide, fun _ => by decide, fun _ => rfl⟩
    rfl rfl (by decide)).2.1

/-- Claim C9: hardware setup runs exactly when the global queue counter is
zero at construction; hardware teardown runs exactly when the instance set
becomes empty at destruction, transitioning the port to SHUTDOWN; the
hardware is never in a torn-down state while instances remain registered;
and after the last instance is destroyed, a subsequent construction
re-initializes the hardware exactly once (setup count 2 after
construct, destruct, construct from fresh: one setup per ACTIVE
transition, no double setup, no use after teardown). -/
theorem hw_lifecycle_exactly_once :
    (∀ (s : PortState) (q : Nat) (s2 : PortState),
      construct s = .ok (q, s2) →
      ((s2.hwInitCount = s.hwInitCount + 1 ↔ s.nextQueueId = 0) ∧
       (s.nextQueueId = 0 → s2.hw = .ACTIVE))) ∧
    (∀ (s : PortState) (qid : Nat),
      ((destruct s qid).hwTeardownCount = s.hwTeardownCount + 1 ↔
        ((s.instances.find? (fun i => i.queueId == qid)).isSome = true ∧
         survivors s qid = []))) ∧
    (∀ (s : PortState) (qid : Nat),
      ((s.instances.find? (fun i => i.queueId == qid)).isSome = true ∧
        survivors s qid = []) → (destruct s qid).hw = .SHUTDOWN) ∧
    (∀ evs : List PortEv, (runPort initialPort evs).instances ≠ [] →
      (runPort initialPort evs).hw = .ACTIVE) ∧
    runPort initialPort [.construct, .destruct 0] =
      ⟨0, [], .SHUTDOWN, 1, 1⟩ ∧
    runPort initialPort [.construct, .destruct 0, .construct] =
      ⟨1, [⟨0, true⟩], .ACTIVE, 2, 1⟩ := by
  refine ⟨?_, ?_, ?_, ?_, by decide, by decide⟩
  · intro s q s2 hok
    by_cases hq : MAX_NUM_QUEUES ≤ s.nextQueueId
    · simp [construct, if_pos hq] at hok
    · simp only [construct, if_neg hq, Except.ok.injEq, Prod.mk.injEq]
        at hok
      obtain ⟨-, hs2⟩ := hok
      subst hs2
      by_cases hz : s.nextQueueId = 0
      · simp [hz]
      · have h1 : (if (s.nextQueueId == 0) = true then s.hwInitCount + 1
            else s.hwInitCount) = s.hwInitCount := by simp [hz]
        refine ⟨?_, fun habs => absurd habs hz⟩
        show (if (s.nextQueueId == 0) = true then s.hwInitCount + 1
            else s.hwInitCount) = s.hwInitCount + 1 ↔ s.nextQueueId = 0
        rw [h1]
        constructor
        · intro habs
          exact absurd habs (by omega)
        · intro habs
          exact absurd habs hz
  · intro s qid
    unfold destruct
    cases hf : s.instances.find? (fun i => i.queueId == qid) with
    | none =>
      constructor
      · intro habs
        change s.hwTeardownCount = s.hwTeardownCount + 1 at habs
        exact absurd habs (by omega)
      · rintro ⟨hsome, -⟩
        simp at hsome
    | some inst =>
      by_cases hre : survivors s qid = []
      · simp [if_pos hre, hre, hf]
      · by_cases howned : inst.rxQueueOwned = true
        · simp only [if_neg hre, if_pos howned]
          constructor
          · intro habs
            change s.hwTeardownCount = s.hwTeardownCount + 1 at habs
            exact absurd habs (by omega)
          · rintro ⟨-, habs⟩
            exact absurd habs hre
        · simp only [if_neg hre, if_neg howned]
          constructor
          · intro habs
            change s.hwTeardownCount = s.hwTeardownCount + 1 at habs
            exact absurd habs (by omega)
          · rintro ⟨-, habs⟩
            exact absurd habs hre
  · intro s qid hcond
    obtain ⟨hsome, hre⟩ := hcond
    unfold destruct
    cases hf : s.instances.find? (fun i => i.queueId == qid) with
    | none =>
      rw [hf] at hsome
      simp at hsome
    | some inst =>
      simp [if_pos hre]
  · intro evs hne
    exact (portInv_run evs).2.2.2.2 hne

/-- Witness for C9: the very first construction from the fresh port (queue
counter zero) increments the hardware setup count from 0 to 1. -/
theorem hw_lifecycle_exactly_once_witness :
    (⟨1, [⟨0, true⟩], .ACTIVE, 1, 0⟩ : PortState).hwInitCount =
      initialPort.hwInitCount + 1 ↔ initialPort.nextQueueId = 0 :=
  (hw_lifecycle_exactly_once.1 initialPort 0
    ⟨1, [⟨0, true⟩], .ACTIVE, 1, 0⟩ rfl).1

end DpdkDriver
